import Mathlib

/-!
Verification of the compression pipeline of `src/server.js` (cpcon-files).

The pipeline is embedded shallowly:

* Byte sizes are `Nat`.
* The image encoder (`sharp`) is abstracted as a function
  `cand : Nat → Nat → Nat` giving, for a `(width, quality)` pair, the byte
  size of the candidate file it produces from the input at `filepath`
  (spec §6: a synchronous transform with a size-in/size-out contract).
* The external PDF tool (`gs`) run is abstracted as a `GsOutcome`:
  either a failure (non-zero exit, timeout, crash — possibly leaving a
  partial temporary output behind) or a success that wrote the temporary
  output file of a given size.
* The relevant filesystem state for one upload is the file at `filepath`
  (does it exist, what is its size) together with the multiset of
  temporary sibling files (`.q<quality>.tmp`, `.tmp.pdf`), tracked as a
  `List String` of names; `fs.renameSync tmp filepath` removes `tmp` from
  that list and sets the main size, `fs.unlinkSync` removes an entry.
-/

namespace CpconFiles

/-! ## Constants (src/server.js lines 30-33, 98-104) -/

def IMAGE_MAX_BYTES : Nat := 5 * 1024 * 1024

def PDF_MAX_BYTES : Nat := 20 * 1024 * 1024

def OTHER_MAX_BYTES : Nat := 20 * 1024 * 1024

def IMAGE_EXTS : List String := [".jpg", ".jpeg", ".png", ".webp", ".avif"]

/-- A ladder pass: `(width, quality)`. -/
abbrev Pass := Nat × Nat

/-- The fixed ladder of `compressImage` (src/server.js lines 98-104). -/
def passes : List Pass :=
  [(1920, 80), (1920, 65), (1920, 50), (1200, 40), (800, 35)]

/-! ## Image compressor (src/server.js `compressImage`, lines 93-140) -/

/-- Name of the per-rung temporary file `filepath + ".q" + quality + ".tmp"`
(src/server.js line 110), relative to `filepath`. -/
def qTmp (q : Nat) : String := ".q" ++ toString q ++ ".tmp"

/-- The loop state of `compressImage`: `bestSize` (`Infinity` is `none`),
`bestTmp` (`null` is `none`), and the temporary sibling files currently on
disk. -/
structure ImgState where
  bestSize : Option Nat
  bestTmp : Option String
  tmps : List String
deriving Repr, DecidableEq

/-- The comparison `size < bestSize` where `bestSize` starts as `Infinity`
(src/server.js lines 106, 119). -/
def sizeLtBest (size : Nat) : Option Nat → Bool
  | none => true
  | some b => decide (size < b)

/-- One iteration of the `for (const { width, quality } of passes)` body
(src/server.js lines 109-128, without the early-exit test): write the
candidate to `out`, then either retain it as the new best (unlinking the
previous best) or unlink it.  Returns the new state and the candidate's
size. -/
def imgPass (cand : Nat → Nat → Nat) (s : ImgState) (w q : Nat) : ImgState × Nat :=
  if sizeLtBest (cand w q) s.bestSize then
    (⟨some (cand w q), some (qTmp q),
      match s.bestTmp with
      | some bt => ((qTmp q) :: s.tmps).erase bt
      | none => (qTmp q) :: s.tmps⟩, cand w q)
  else
    (⟨s.bestSize, s.bestTmp, ((qTmp q) :: s.tmps).erase (qTmp q)⟩, cand w q)

/-- The ladder loop of `compressImage` with its early exit
`if (size <= IMAGE_MAX_BYTES) break` (src/server.js lines 109-129). -/
def imgLoop (cand : Nat → Nat → Nat) : List Pass → ImgState → ImgState
  | [], s => s
  | (w, q) :: ps, s =>
    if (imgPass cand s w q).2 ≤ IMAGE_MAX_BYTES then (imgPass cand s w q).1
    else imgLoop cand ps (imgPass cand s w q).1

/-- `compressImage` (src/server.js lines 93-140): run the ladder loop from
the initial state, promote the best candidate into `filepath` via
`renameSync` when one exists, and return `statSync(filepath).size`
together with the temporary files left on disk.  (The trailing
`if (fs.existsSync(tmp)) fs.unlinkSync(tmp)` for the plain
`filepath + ".tmp"` is a no-op: nothing in this revision creates that
path, and the pipeline owns `filepath` exclusively, so that name is never
in the state.)  Format selection (`png` stays `png`, the rest become
`jpeg`, line 95) only parameterizes the encoder and is absorbed into
`cand`. -/
def compressImage (cand : Nat → Nat → Nat) (origSize : Nat) : Nat × List String :=
  match imgLoop cand passes ⟨none, none, []⟩ with
  | ⟨some bs, some bt, tmps⟩ => (bs, tmps.erase bt)
  | ⟨_, _, tmps⟩ => (origSize, tmps)

/-! ## Specification vocabulary for the image ladder

These definitions are statement vocabulary, not embeddings of code: they
name, for a given encoder behaviour, which rungs the loop attempts and the
minimum of a list of candidate sizes. -/

/-- The rungs actually attempted: each rung is attempted, and the ladder
continues past it exactly when its candidate is strictly above the image
budget. -/
def attempted (cand : Nat → Nat → Nat) : List Pass → List Pass
  | [] => []
  | (w, q) :: ps =>
    (w, q) :: (if cand w q ≤ IMAGE_MAX_BYTES then [] else attempted cand ps)

/-- The candidate sizes the encoder produces for a list of rungs. -/
def candSizes (cand : Nat → Nat → Nat) (ps : List Pass) : List Nat :=
  ps.map fun p => cand p.1 p.2

/-- Minimum of a list of sizes (0 for the empty list; only ever used on
nonempty lists). -/
def minList : List Nat → Nat
  | [] => 0
  | x :: xs => xs.foldl min x

/-! ## Basic lemmas about the image loop -/

theorem erase_cons_self (a : String) (l : List String) : (a :: l).erase a = l := by
  simp [List.erase_cons]

theorem erase_pair (a t : String) : (a :: [t]).erase t = [a] := by
  rcases eq_or_ne a t with h | h
  · subst h; simp [List.erase_cons]
  · simp [List.erase_cons, h]

/-- `imgPass` on the initial state retains the first candidate. -/
theorem imgPass_initial (cand : Nat → Nat → Nat) (w q : Nat) :
    imgPass cand ⟨none, none, []⟩ w q =
      (⟨some (cand w q), some (qTmp q), [qTmp q]⟩, cand w q) := by
  simp [imgPass, sizeLtBest]

/-- `imgPass` on a well-formed state (best present, exactly its temporary
on disk) retains the candidate exactly when it is strictly smaller than
the best so far, discarding whichever temporary loses. -/
theorem imgPass_best (cand : Nat → Nat → Nat) (b : Nat) (t : String) (w q : Nat) :
    imgPass cand ⟨some b, some t, [t]⟩ w q =
      (if cand w q < b then ⟨some (cand w q), some (qTmp q), [qTmp q]⟩
       else ⟨some b, some t, [t]⟩, cand w q) := by
  by_cases h : cand w q < b
  · simp [imgPass, sizeLtBest, h, erase_pair]
  · simp [imgPass, sizeLtBest, h, erase_cons_self]

/-- Running the loop from a well-formed state folds `min` over the
candidate sizes of the rungs it attempts, and keeps exactly one temporary
file: the best one. -/
theorem imgLoop_from_best (cand : Nat → Nat → Nat) :
    ∀ (ps : List Pass) (b : Nat) (t : String),
      ∃ u, imgLoop cand ps ⟨some b, some t, [t]⟩ =
        ⟨some (List.foldl min b (candSizes cand (attempted cand ps))), some u, [u]⟩ := by
  intro ps
  induction ps with
  | nil =>
    intro b t
    exact ⟨t, by simp [imgLoop, attempted, candSizes]⟩
  | cons p ps ih =>
    obtain ⟨w, q⟩ := p
    intro b t
    by_cases hB : cand w q ≤ IMAGE_MAX_BYTES
    · refine ⟨if cand w q < b then qTmp q else t, ?_⟩
      by_cases h : cand w q < b
      · simp [imgLoop, imgPass_best, h, hB, attempted, candSizes,
          Nat.min_eq_right (Nat.le_of_lt h)]
      · simp [imgLoop, imgPass_best, h, hB, attempted, candSizes,
          Nat.min_eq_left (Nat.le_of_not_lt h)]
    · by_cases h : cand w q < b
      · obtain ⟨u, hu⟩ := ih (cand w q) (qTmp q)
        refine ⟨u, ?_⟩
        have hmin : min b (cand w q) = cand w q := Nat.min_eq_right (Nat.le_of_lt h)
        simp [imgLoop, imgPass_best, h, hB, attempted, candSizes, hu, hmin]
      · obtain ⟨u, hu⟩ := ih b t
        refine ⟨u, ?_⟩
        have hmin : min b (cand w q) = b := Nat.min_eq_left (Nat.le_of_not_lt h)
        simp [imgLoop, imgPass_best, h, hB, attempted, candSizes, hu, hmin]

/-- Running the loop on a nonempty ladder from the initial state yields
the minimum candidate size over the attempted rungs, with exactly the best
temporary on disk. -/
theorem imgLoop_full (cand : Nat → Nat → Nat) (w q : Nat) (ps : List Pass) :
    ∃ u, imgLoop cand ((w, q) :: ps) ⟨none, none, []⟩ =
      ⟨some (minList (candSizes cand (attempted cand ((w, q) :: ps)))), some u, [u]⟩ := by
  by_cases hB : cand w q ≤ IMAGE_MAX_BYTES
  · exact ⟨qTmp q, by simp [imgLoop, imgPass_initial, hB, attempted, candSizes, minList]⟩
  · obtain ⟨u, hu⟩ := imgLoop_from_best cand ps (cand w q) (qTmp q)
    refine ⟨u, ?_⟩
    simp [imgLoop, imgPass_initial, hB, hu, attempted, candSizes, minList]

/-- Characterization of `compressImage`: it returns the minimum candidate
size over the attempted rungs, and leaves no temporary file behind. -/
theorem compressImage_char (cand : Nat → Nat → Nat) (origSize : Nat) :
    compressImage cand origSize =
      (minList (candSizes cand (attempted cand passes)), []) := by
  obtain ⟨u, hu⟩ := imgLoop_full cand 1920 80 [(1920, 65), (1920, 50), (1200, 40), (800, 35)]
  unfold compressImage
  simp only [passes] at hu ⊢
  rw [hu]
  simp [erase_cons_self]

/-! ## PDF compressor (src/server.js `compressPdf`, lines 143-192) -/

/-- Outcome of the single `gs` invocation (timeout `GS_TIMEOUT_MS`): a
failure (non-zero exit, timeout, or crash), which may leave a partial
temporary output of some size behind, or a success that wrote the
temporary output `filepath + ".tmp.pdf"` with the given size. -/
inductive GsOutcome
  | failure (partOut : Option Nat)
  | success (outSize : Nat)
deriving Repr, DecidableEq

/-- Terminal failures the pipeline raises (`throw new Error(...)`), each
carrying the offending byte size reported in the message. -/
inductive CompressErr
  | pdfTooLarge (size : Nat)
  | otherTooLarge (size : Nat)
deriving Repr, DecidableEq

/-- Result of a pipeline function: a returned final size, or a raised
terminal failure. -/
inductive CResult
  | ok (size : Nat)
  | err (e : CompressErr)
deriving Repr, DecidableEq

/-- The observable state of one upload after a pipeline function runs:
the result, whether the file at `filepath` still exists (and its size
when it does; 0 is used as a dummy after deletion), and the temporary
sibling files still on disk. -/
structure Outcome where
  result : CResult
  mainExists : Bool
  mainSize : Nat
  tmps : List String
deriving Repr, DecidableEq

/-- `compressPdf` (src/server.js lines 143-192).

* `gs` failed (catch branch, lines 165-174): the partial temporary output
  is unlinked if present (so no temporary remains either way); then, if
  the original size exceeds `PDF_MAX_BYTES`, the original is unlinked and
  the terminal failure is thrown, otherwise the original size is
  returned with the original untouched.
* `gs` succeeded (lines 176-191): `compressedSize` is the size of the
  temporary output (which exists on success, so the
  `fs.existsSync(tmp) ? ... : originalSize` guard takes its first arm);
  if it is strictly smaller than the original the temporary is renamed
  over `filepath`, otherwise it is unlinked; then the retained file's
  size is checked once against `PDF_MAX_BYTES`: above budget the file is
  unlinked and the terminal failure is thrown, otherwise the size is
  returned. -/
def compressPdf (gs : GsOutcome) (originalSize : Nat) : Outcome :=
  match gs with
  | GsOutcome.failure _ =>
    if PDF_MAX_BYTES < originalSize then
      ⟨CResult.err (CompressErr.pdfTooLarge originalSize), false, 0, []⟩
    else
      ⟨CResult.ok originalSize, true, originalSize, []⟩
  | GsOutcome.success outSize =>
    if outSize < originalSize then
      if PDF_MAX_BYTES < outSize then
        ⟨CResult.err (CompressErr.pdfTooLarge outSize), false, 0, []⟩
      else
        ⟨CResult.ok outSize, true, outSize, []⟩
    else
      if PDF_MAX_BYTES < originalSize then
        ⟨CResult.err (CompressErr.pdfTooLarge originalSize), false, 0, []⟩
      else
        ⟨CResult.ok originalSize, true, originalSize, []⟩

/-! ## Category classifier and dispatcher (src/server.js `compress`,
lines 195-218) -/

/-- A file's category, derived from its extension. -/
inductive Category
  | image
  | pdf
  | other
deriving Repr, DecidableEq

/-- JavaScript's `String.prototype.toLowerCase`, character by character.
(JS lowercases per Unicode; `Char.toLower` agrees with it on the ASCII
range, which covers every string this development compares against.) -/
def jsLower (s : String) : String := ⟨s.data.map Char.toLower⟩

/-- Classification used by `compress` (lines 196, 199, 205): the
lowercased extension is looked up in `IMAGE_EXTS`, then compared with
`".pdf"`, and everything else is `other`. -/
def classify (ext : String) : Category :=
  if jsLower ext ∈ IMAGE_EXTS then Category.image
  else if jsLower ext = ".pdf" then Category.pdf
  else Category.other

/-- `compress` (src/server.js lines 195-218): dispatch on the category.
Images go to `compressImage` (which never throws); PDFs to `compressPdf`;
any other category is only checked against `OTHER_MAX_BYTES` — above it
the file is unlinked and the terminal failure thrown, otherwise the
original size is returned with no transformation. -/
def compress (cand : Nat → Nat → Nat) (gs : GsOutcome) (ext : String) (size : Nat) :
    Outcome :=
  match classify ext with
  | Category.image =>
    ⟨CResult.ok (compressImage cand size).1, true, (compressImage cand size).1,
      (compressImage cand size).2⟩
  | Category.pdf => compressPdf gs size
  | Category.other =>
    if OTHER_MAX_BYTES < size then
      ⟨CResult.err (CompressErr.otherTooLarge size), false, 0, []⟩
    else
      ⟨CResult.ok size, true, size, []⟩

/-- Specification vocabulary: the size of the file retained after the
single `gs` pass is resolved — the original on tool failure, and the
smaller of optimized and original on tool success. -/
def retainedPdfSize (gs : GsOutcome) (originalSize : Nat) : Nat :=
  match gs with
  | GsOutcome.failure _ => originalSize
  | GsOutcome.success outSize => if outSize < originalSize then outSize else originalSize

/-- `compressPdf` is exactly: resolve the pass, then one budget check on
the retained size. -/
theorem compressPdf_eq (gs : GsOutcome) (originalSize : Nat) :
    compressPdf gs originalSize =
      if PDF_MAX_BYTES < retainedPdfSize gs originalSize then
        ⟨CResult.err (CompressErr.pdfTooLarge (retainedPdfSize gs originalSize)),
          false, 0, []⟩
      else
        ⟨CResult.ok (retainedPdfSize gs originalSize), true,
          retainedPdfSize gs originalSize, []⟩ := by
  cases gs with
  | failure p => rfl
  | success o =>
    by_cases h : o < originalSize <;> simp [compressPdf, retainedPdfSize, h]

/-- The retained size never exceeds the original size. -/
theorem retainedPdfSize_le (gs : GsOutcome) (orig : Nat) :
    retainedPdfSize gs orig ≤ orig := by
  cases gs with
  | failure p => exact Nat.le_refl orig
  | success o =>
    by_cases h : o < orig
    · simpa [retainedPdfSize, h] using Nat.le_of_lt h
    · simp [retainedPdfSize, h]

/-- Unfolding `attempted` when the head rung's candidate meets the budget:
the ladder stops there. -/
theorem attempted_cons_stop (cand : Nat → Nat → Nat) (w q : Nat) (ps : List Pass)
    (hB : cand w q ≤ IMAGE_MAX_BYTES) :
    attempted cand ((w, q) :: ps) = [(w, q)] := by
  simp [attempted, hB]

/-- Unfolding `attempted` when the head rung's candidate misses the
budget: the ladder continues. -/
theorem attempted_cons_go (cand : Nat → Nat → Nat) (w q : Nat) (ps : List Pass)
    (hB : ¬cand w q ≤ IMAGE_MAX_BYTES) :
    attempted cand ((w, q) :: ps) = (w, q) :: attempted cand ps := by
  simp [attempted, hB]

/-- The attempted rungs are never more than the configured ladder. -/
theorem attempted_length_le (cand : Nat → Nat → Nat) (ps : List Pass) :
    (attempted cand ps).length ≤ ps.length := by
  induction ps with
  | nil => simp [attempted]
  | cons p ps ih =>
    obtain ⟨w, q⟩ := p
    by_cases hB : cand w q ≤ IMAGE_MAX_BYTES
    · rw [attempted_cons_stop cand w q ps hB]
      simp
    · rw [attempted_cons_go cand w q ps hB]
      simp only [List.length_cons]
      omega

/-- Rung `j` is attempted exactly when it exists and every earlier rung's
candidate size was strictly above the image budget. -/
theorem attempted_length_iff (cand : Nat → Nat → Nat) (ps : List Pass) (j : Nat) :
    j < (attempted cand ps).length ↔
      j < ps.length ∧ ∀ i, i < j → IMAGE_MAX_BYTES < (candSizes cand ps).getD i 0 := by
  induction ps generalizing j with
  | nil => simp [attempted]
  | cons p ps ih =>
    obtain ⟨w, q⟩ := p
    by_cases hB : cand w q ≤ IMAGE_MAX_BYTES
    · rw [attempted_cons_stop cand w q ps hB]
      cases j with
      | zero => simp
      | succ j =>
        simp only [List.length_cons, List.length_nil, List.length_singleton]
        constructor
        · intro h; exact absurd h (by omega)
        · rintro ⟨-, h2⟩
          have hc := h2 0 (Nat.succ_pos j)
          simp [candSizes] at hc
          omega
    · rw [attempted_cons_go cand w q ps hB]
      cases j with
      | zero =>
        simp
      | succ j =>
        simp only [List.length_cons, Nat.succ_lt_succ_iff, ih j]
        constructor
        · rintro ⟨h1, h2⟩
          refine ⟨h1, ?_⟩
          intro i hi
          cases i with
          | zero => simpa [candSizes] using Nat.lt_of_not_le hB
          | succ i => simpa [candSizes] using h2 i (Nat.lt_of_succ_lt_succ hi)
        · rintro ⟨h1, h2⟩
          refine ⟨h1, ?_⟩
          intro i hi
          simpa [candSizes] using h2 (i + 1) (Nat.succ_lt_succ hi)

/-- The best size tracked by the full ladder loop is the minimum attempted
candidate size. -/
theorem imgLoop_bestSize (cand : Nat → Nat → Nat) :
    (imgLoop cand passes ⟨none, none, []⟩).bestSize =
      some (minList (candSizes cand (attempted cand passes))) := by
  obtain ⟨u, hu⟩ :=
    imgLoop_full cand 1920 80 [(1920, 65), (1920, 50), (1200, 40), (800, 35)]
  have hp : passes = (1920, 80) :: [(1920, 65), (1920, 50), (1200, 40), (800, 35)] := rfl
  rw [hp, hu]

/-- On image-category inputs the dispatcher returns the image compressor's
best-effort result and leaves no temporary behind. -/
theorem compress_image_eq (cand : Nat → Nat → Nat) (gs : GsOutcome) (ext : String)
    (size : Nat) (hc : classify ext = Category.image) :
    compress cand gs ext size =
      ⟨CResult.ok (minList (candSizes cand (attempted cand passes))), true,
        minList (candSizes cand (attempted cand passes)), []⟩ := by
  simp [compress, hc, compressImage_char]

/-! ## The claims -/

/-- Claim C1: for every image-category input, `compressImage` attempts the
fixed ladder 1920px/80, 1920px/65, 1920px/50, 1200px/40, 800px/35 in that
order; a candidate is retained as current best exactly when its size is
strictly smaller than every candidate produced before it (i.e. strictly
smaller than the tracked minimum), discarding the previous best temporary;
and a rung is attempted exactly when every earlier rung's candidate was
strictly above the 5MB image budget, so no rung follows the first
in-budget candidate. -/
theorem claim_C1 :
    passes = [(1920, 80), (1920, 65), (1920, 50), (1200, 40), (800, 35)]
    ∧ (∀ (cand : Nat → Nat → Nat) (w q : Nat),
        imgPass cand ⟨none, none, []⟩ w q =
          (⟨some (cand w q), some (qTmp q), [qTmp q]⟩, cand w q))
    ∧ (∀ (cand : Nat → Nat → Nat) (b : Nat) (t : String) (w q : Nat),
        imgPass cand ⟨some b, some t, [t]⟩ w q =
          (if cand w q < b then ⟨some (cand w q), some (qTmp q), [qTmp q]⟩
           else ⟨some b, some t, [t]⟩, cand w q))
    ∧ (∀ cand : Nat → Nat → Nat,
        (imgLoop cand passes ⟨none, none, []⟩).bestSize =
          some (minList (candSizes cand (attempted cand passes))))
    ∧ (∀ (cand : Nat → Nat → Nat) (j : Nat),
        j < (attempted cand passes).length ↔
          j < passes.length ∧
            ∀ i, i < j → IMAGE_MAX_BYTES < (candSizes cand passes).getD i 0) :=
  ⟨rfl, imgPass_initial, imgPass_best, imgLoop_bestSize,
    fun cand j => attempted_length_iff cand passes j⟩

theorem claim_C1_witness :
    0 < (attempted (fun _ _ => 6291456) passes).length :=
  (claim_C1.2.2.2.2 (fun _ _ => 6291456) 0).mpr
    ⟨by decide, fun i hi => absurd hi (Nat.not_lt_zero i)⟩

/-- Claim C2: for every image-category input, `compress` never raises: it
returns `ok` with the smallest candidate size produced across the
attempted rungs (possibly above the 5MB budget), that candidate having
been promoted into the original file's path, with no temporary left. -/
theorem claim_C2 (cand : Nat → Nat → Nat) (gs : GsOutcome) (ext : String) (size : Nat)
    (h : classify ext = Category.image) :
    compress cand gs ext size =
      ⟨CResult.ok (minList (candSizes cand (attempted cand passes))), true,
        minList (candSizes cand (attempted cand passes)), []⟩ :=
  compress_image_eq cand gs ext size h

theorem claim_C2_witness :
    compress (fun _ _ => 6291456) (GsOutcome.failure none) ".jpg" 8388608 =
      ⟨CResult.ok 6291456, true, 6291456, []⟩ :=
  (claim_C2 (fun _ _ => 6291456) (GsOutcome.failure none) ".jpg" 8388608
    (by decide)).trans (by decide)

/-- Claim C3: when the external tool run succeeds, `compressPdf` keeps the
optimized output exactly when it is strictly smaller than the original
(otherwise it keeps the original), so whenever the stored file exists its
size is at most the original size. -/
theorem claim_C3 (o orig : Nat)
    (h : (compressPdf (GsOutcome.success o) orig).mainExists = true) :
    (compressPdf (GsOutcome.success o) orig).mainSize = (if o < orig then o else orig)
    ∧ (compressPdf (GsOutcome.success o) orig).mainSize ≤ orig := by
  rw [compressPdf_eq] at h ⊢
  by_cases hb : PDF_MAX_BYTES < retainedPdfSize (GsOutcome.success o) orig
  · rw [if_pos hb] at h
    exact absurd h (by simp)
  · rw [if_neg hb]
    exact ⟨rfl, retainedPdfSize_le (GsOutcome.success o) orig⟩

theorem claim_C3_witness :
    (compressPdf (GsOutcome.success 1048576) 3145728).mainSize =
      (if 1048576 < 3145728 then 1048576 else 3145728)
    ∧ (compressPdf (GsOutcome.success 1048576) 3145728).mainSize ≤ 3145728 :=
  claim_C3 1048576 3145728 (by decide)

/-- Claim C4: when the external tool fails, `compressPdf` deletes any
partial temporary output and falls back to the original: above the 20MB
budget the original is deleted and the terminal failure raised, otherwise
the original is left unchanged and its size returned. -/
theorem claim_C4 (p : Option Nat) (orig : Nat) :
    (compressPdf (GsOutcome.failure p) orig).tmps = []
    ∧ (PDF_MAX_BYTES < orig →
        compressPdf (GsOutcome.failure p) orig =
          ⟨CResult.err (CompressErr.pdfTooLarge orig), false, 0, []⟩)
    ∧ (orig ≤ PDF_MAX_BYTES →
        compressPdf (GsOutcome.failure p) orig =
          ⟨CResult.ok orig, true, orig, []⟩) := by
  refine ⟨?_, ?_, ?_⟩
  · by_cases h : PDF_MAX_BYTES < orig <;> simp [compressPdf, h]
  · intro h; simp [compressPdf, h]
  · intro h; simp [compressPdf, Nat.not_lt.mpr h]

theorem claim_C4_witness :
    compressPdf (GsOutcome.failure (some 123)) 26214400 =
      ⟨CResult.err (CompressErr.pdfTooLarge 26214400), false, 0, []⟩ :=
  (claim_C4 (some 123) 26214400).2.1 (by decide)

/-- Claim C5: for every PDF input, once the single pass is resolved
(fallback or success) `compressPdf` checks the retained file's size
against the 20MB budget exactly once: above budget the file is deleted and
the terminal failure raised, with no retry; otherwise that size is
returned. -/
theorem claim_C5 (gs : GsOutcome) (orig : Nat) :
    compressPdf gs orig =
      if PDF_MAX_BYTES < retainedPdfSize gs orig then
        ⟨CResult.err (CompressErr.pdfTooLarge (retainedPdfSize gs orig)),
          false, 0, []⟩
      else
        ⟨CResult.ok (retainedPdfSize gs orig), true, retainedPdfSize gs orig, []⟩ :=
  compressPdf_eq gs orig

/-- Claim C6: classification is a total function of the lowercased
extension — the five image extensions map to `image`, `.pdf` maps to
`pdf`, everything else to `other` — and for `other`-category files the
dispatcher applies no transformation: it deletes the file and raises
exactly when the original size exceeds the 20MB budget, and otherwise
returns the original size unchanged. -/
theorem claim_C6 :
    (classify ".jpg" = Category.image ∧ classify ".jpeg" = Category.image
      ∧ classify ".png" = Category.image ∧ classify ".webp" = Category.image
      ∧ classify ".avif" = Category.image)
    ∧ classify ".pdf" = Category.pdf
    ∧ (∀ e : String, jsLower e ∉ IMAGE_EXTS → jsLower e ≠ ".pdf" →
        classify e = Category.other)
    ∧ (∀ (cand : Nat → Nat → Nat) (gs : GsOutcome) (ext : String) (size : Nat),
        classify ext = Category.other →
          compress cand gs ext size =
            if OTHER_MAX_BYTES < size then
              ⟨CResult.err (CompressErr.otherTooLarge size), false, 0, []⟩
            else ⟨CResult.ok size, true, size, []⟩) := by
  refine ⟨⟨by decide, by decide, by decide, by decide, by decide⟩, by decide, ?_, ?_⟩
  · intro e h1 h2
    simp [classify, h1, h2]
  · intro cand gs ext size h
    simp [compress, h]

theorem claim_C6_witness :
    compress (fun _ _ => 0) (GsOutcome.failure none) ".zip" 31457280 =
      ⟨CResult.err (CompressErr.otherTooLarge 31457280), false, 0, []⟩ :=
  (claim_C6.2.2.2 (fun _ _ => 0) (GsOutcome.failure none) ".zip" 31457280
    (by decide)).trans (by decide)

/-- Claim C7: whenever the dispatcher terminates in failure, the input
file has been deleted, for every category. -/
theorem claim_C7 (cand : Nat → Nat → Nat) (gs : GsOutcome) (ext : String) (size : Nat)
    (e : CompressErr) (h : (compress cand gs ext size).result = CResult.err e) :
    (compress cand gs ext size).mainExists = false := by
  rcases hc : classify ext with _ | _ | _
  · rw [compress_image_eq cand gs ext size hc] at h
    exact absurd h (by simp)
  · have hpdf : compress cand gs ext size = compressPdf gs size := by
      simp [compress, hc]
    rw [hpdf, compressPdf_eq] at h ⊢
    by_cases hb : PDF_MAX_BYTES < retainedPdfSize gs size
    · rw [if_pos hb]
    · rw [if_neg hb] at h
      exact absurd h (by simp)
  · by_cases ho : OTHER_MAX_BYTES < size
    · simp [compress, hc, ho]
    · simp [compress, hc, ho] at h

theorem claim_C7_witness :
    (compress (fun _ _ => 0) (GsOutcome.failure (some 5)) ".pdf" 26214400).mainExists =
      false :=
  claim_C7 (fun _ _ => 0) (GsOutcome.failure (some 5)) ".pdf" 26214400
    (CompressErr.pdfTooLarge 26214400) (by decide)

/-- Claim C8: after the pipeline completes, in success or failure, no
temporary sibling file remains, for every category and environment
behaviour. -/
theorem claim_C8 (cand : Nat → Nat → Nat) (gs : GsOutcome) (ext : String) (size : Nat) :
    (compress cand gs ext size).tmps = [] := by
  rcases hc : classify ext with _ | _ | _
  · simp [compress, hc, compressImage_char]
  · have hpdf : compress cand gs ext size = compressPdf gs size := by
      simp [compress, hc]
    rw [hpdf, compressPdf_eq]
    by_cases hb : PDF_MAX_BYTES < retainedPdfSize gs size
    · rw [if_pos hb]
    · rw [if_neg hb]
  · by_cases ho : OTHER_MAX_BYTES < size <;> simp [compress, hc, ho]

/-- Claim C9, counterexample: re-running the pipeline on a pipeline output
of the same category can increase its stored size.  A 1000000-byte image
whose first rung encodes to 1000 bytes is stored at 1000 bytes; re-running
on that file, with the encoder now producing a 2000-byte first-rung
candidate (2000 ≤ 5MB, so it is accepted and promoted), stores 2000 bytes.
The image ladder never compares a candidate against the input's size, so
nothing prevents the growth. -/
theorem claim_C9_counterexample :
    (compress (fun _ _ => 1000) (GsOutcome.failure none) ".jpg" 1000000).result =
      CResult.ok 1000
    ∧ (compress (fun _ _ => 2000) (GsOutcome.failure none) ".jpg" 1000).result =
      CResult.ok 2000
    ∧ ¬(2000 ≤ 1000) :=
  ⟨by decide, by decide, by decide⟩

/-- Claim C9, amended: re-running the pipeline on a successful output of
the same category terminates within the configured bounds; for PDFs the
second run succeeds and does not increase the stored size; for images the
second run stores the smallest candidate its attempted rungs produce
(attempting at most the ladder's five rungs), which may exceed the input
size. -/
theorem claim_C9_amended :
    (∀ (gs1 gs2 : GsOutcome) (orig s1 : Nat),
        (compressPdf gs1 orig).result = CResult.ok s1 →
          ∃ s2, (compressPdf gs2 s1).result = CResult.ok s2 ∧ s2 ≤ s1)
    ∧ (∀ (cand : Nat → Nat → Nat) (s1 : Nat),
        compressImage cand s1 = (minList (candSizes cand (attempted cand passes)), [])
        ∧ (attempted cand passes).length ≤ passes.length) := by
  constructor
  · intro gs1 gs2 orig s1 h
    rw [compressPdf_eq] at h
    by_cases hb : PDF_MAX_BYTES < retainedPdfSize gs1 orig
    · rw [if_pos hb] at h
      exact absurd h (by simp)
    · rw [if_neg hb] at h
      have hs1 : retainedPdfSize gs1 orig = s1 := by simpa using h
      have hle : s1 ≤ PDF_MAX_BYTES := hs1 ▸ Nat.le_of_not_lt hb
      refine ⟨retainedPdfSize gs2 s1, ?_, retainedPdfSize_le gs2 s1⟩
      rw [compressPdf_eq,
        if_neg (Nat.not_lt.mpr (le_trans (retainedPdfSize_le gs2 s1) hle))]
  · intro cand s1
    exact ⟨compressImage_char cand s1, attempted_length_le cand passes⟩

theorem claim_C9_amended_witness :
    ∃ s2, (compressPdf (GsOutcome.failure none) 1048576).result = CResult.ok s2
      ∧ s2 ≤ 1048576 :=
  claim_C9_amended.1 (GsOutcome.success 1048576) (GsOutcome.failure none)
    3145728 1048576 (by decide)

/-- Claim C10, counterexample: the configured ladder is not strictly
decreasing in maximum width — the first two rungs share width 1920 (so do
the first three). -/
theorem claim_C10_counterexample :
    ¬ (∀ i : Nat, i + 1 < passes.length →
        (passes.getD (i + 1) (0, 0)).1 < (passes.getD i (0, 0)).1
        ∧ (passes.getD (i + 1) (0, 0)).2 < (passes.getD i (0, 0)).2) := by
  intro h
  exact absurd (h 0 (by decide)).1 (by decide)

/-- Claim C10, amended: along the configured ladder the maximum width is
non-increasing and the encoding quality is strictly decreasing. -/
theorem claim_C10_amended (i : Nat) (h : i + 1 < passes.length) :
    (passes.getD (i + 1) (0, 0)).1 ≤ (passes.getD i (0, 0)).1
    ∧ (passes.getD (i + 1) (0, 0)).2 < (passes.getD i (0, 0)).2 := by
  have h5 : i + 1 < 5 := by simpa [passes] using h
  have h4 : i < 4 := by omega
  interval_cases i <;> exact ⟨by decide, by decide⟩

theorem claim_C10_amended_witness :
    (passes.getD 1 (0, 0)).1 ≤ (passes.getD 0 (0, 0)).1
    ∧ (passes.getD 1 (0, 0)).2 < (passes.getD 0 (0, 0)).2 :=
  claim_C10_amended 0 (by decide)

end CpconFiles
